import Mathlib

/-!
Verification development for the evidently report engine.

The definitions in the first part of this file are a shallow embedding of
`src/evidently/metrics/regression_performance/predicted_vs_actual.py` and
`src/evidently/report/report.py`.  Collaborator code that the repository
imports but does not ship (`process_columns`, the `Suite`/`Context` classes,
renderers) is modelled from the specification; each such definition carries a
doc comment saying so.
-/

namespace Evidently

/-- Model of a Python float-like cell value: a finite rational, positive or
negative infinity, or NaN (which also stands for a missing value, since a
lookup of an absent column yields a missing cell). -/
inductive EVal where
  | num (q : ℚ)
  | pinf
  | ninf
  | nan
deriving DecidableEq, Repr

/-- Replacement of `np.inf` and `-np.inf` by NaN; everything else unchanged.
This is the per-cell action of `df.replace([np.inf, -np.inf], np.nan)`. -/
def EVal.deInf : EVal → EVal
  | .pinf => .nan
  | .ninf => .nan
  | v => v

/-- A cell is a finite numeric value (not NaN, not infinite, not missing). -/
def EVal.isFiniteVal : EVal → Bool
  | .num _ => true
  | _ => false

/-- Ordering rank used by `sort_values`: -inf < numbers < +inf < NaN
(pandas sorts NaN last by default). -/
def EVal.rank : EVal → Nat
  | .ninf => 0
  | .num _ => 1
  | .pinf => 2
  | .nan => 3

/-- Comparison on cell values used as the `sort_values` key. -/
def EVal.le : EVal → EVal → Bool
  | .num a, .num b => decide (a ≤ b)
  | x, y => decide (x.rank ≤ y.rank)

/-- A dataframe row: its positional index (the pandas index) and its cells as
an association list from column name to value. -/
structure Row where
  idx : Int
  cells : List (String × EVal)
deriving DecidableEq, Repr

/-- Column access; an absent column reads as NaN (missing). -/
def Row.get (r : Row) (c : String) : EVal :=
  (r.cells.lookup c).getD EVal.nan

/-- The action of `df.replace([np.inf, -np.inf], np.nan)` on one row. -/
def Row.deInf (r : Row) : Row :=
  ⟨r.idx, r.cells.map (fun p => (p.1, p.2.deInf))⟩

/-- Predicate detecting a row that `dropna(how="any", subset=...)` drops:
some subset column is NaN. -/
def Row.hasNa (r : Row) (subset : List String) : Bool :=
  subset.any (fun c => r.get c == EVal.nan)

/-- A dataframe is its ordered list of rows. -/
abbrev DFrame := List Row

/-- Embedding of `df.replace([np.inf, -np.inf], np.nan)` on a dataframe. -/
def replaceInfWithNan (df : DFrame) : DFrame :=
  df.map Row.deInf

/-- Embedding of `df.dropna(axis=0, how="any", subset=subset)`. -/
def dropna (df : DFrame) (subset : List String) : DFrame :=
  df.filter (fun r => !(r.hasNa subset))

/-- Stable insertion into a sorted list: the new element goes before the
first element it compares `≤` to, so earlier rows stay before equal keys. -/
def insertByKey (key : Row → Row → Bool) (a : Row) : List Row → List Row
  | [] => [a]
  | b :: l => if key a b then a :: b :: l else b :: insertByKey key a l

/-- Stable sort (insertion sort) by a boolean comparison; models pandas
`sort_index` / `sort_values` as a stable reordering by the key. -/
def sortByKey (key : Row → Row → Bool) : List Row → List Row
  | [] => []
  | a :: l => insertByKey key a (sortByKey key l)

/-- The ordering key used by `_make_df_for_plot`: `sort_values` by the
datetime column when one is supplied, `sort_index` otherwise. -/
def plotOrderKey : Option String → Row → Row → Bool
  | none, a, b => decide (a.idx ≤ b.idx)
  | some c, a, b => EVal.le (a.get c) (b.get c)

/-- Embedding of `df.sort_index()`. -/
def sortByIdx (df : DFrame) : DFrame :=
  sortByKey (plotOrderKey none) df

/-- Embedding of `RegressionPredictedVsActualScatter._make_df_for_plot`:
replace infinities with NaN, drop rows with NaN in the subset columns, then
sort by the datetime column if one is given, else by the index. -/
def make_df_for_plot (df : DFrame) (target_name prediction_name : String)
    (datetime_column_name : Option String) : DFrame :=
  let result := replaceInfWithNan df
  match datetime_column_name with
  | some d => sortByKey (plotOrderKey (some d)) (dropna result [target_name, prediction_name, d])
  | none => sortByKey (plotOrderKey none) (dropna result [target_name, prediction_name])

/-- Column-role mapping supplied by the caller (target column, prediction
column or columns, optional datetime column). -/
structure ColumnMapping where
  target : Option String
  prediction : Option (String ⊕ List String)
  datetime : Option String
deriving DecidableEq, Repr

/-- The `ColumnMapping()` default used when `run` receives no mapping. -/
instance : Inhabited ColumnMapping := ⟨⟨none, none, none⟩⟩

/-- Utility columns of the resolved column roles. -/
structure UtilityColumns where
  target : Option String
  prediction : Option (String ⊕ List String)
  datetime : Option String
deriving DecidableEq, Repr

/-- Modelled from the spec: `process_columns(table, mapping) → ColumnsInfo`
(`evidently.utils.data_operations`, not shipped under src/) is the
column-role resolver; it reports the roles declared by the mapping. -/
def process_columns (_df : DFrame) (m : ColumnMapping) : UtilityColumns :=
  ⟨m.target, m.prediction, m.datetime⟩

/-- The input bundle handed to metric computations.  The additional-feature
fields of the source `InputData` are omitted: they are `None` at every use
site relevant to the embedded code. -/
structure InputData where
  reference_data : Option DFrame
  current_data : DFrame
  column_mapping : ColumnMapping

/-- Raw scatter payload: paired predicted/actual columns. -/
structure PredActualScatter where
  predicted : List EVal
  actual : List EVal
deriving DecidableEq, Repr

/-- Aggregated scatter payload (the source leaves it as a stub dictionary). -/
structure AggPredActualScatter where
  data : List (String × Int)
deriving DecidableEq, Repr

/-- The `Union[PredActualScatter, AggPredActualScatter]` field type of
`RegressionPredictedVsActualScatterResults`. -/
inductive ScatterData where
  | raw (s : PredActualScatter)
  | agg (a : AggPredActualScatter)
deriving DecidableEq, Repr

/-- Embedding of `RegressionPredictedVsActualScatterResults`: a current side
and an optional reference side. -/
structure RegressionPredictedVsActualScatterResults where
  current : ScatterData
  reference : Option ScatterData
deriving DecidableEq, Repr

/-- Embedding of `RegressionPredictedVsActualScatter.calculate`.
`agg_data` is the metric's option `self.get_options().agg_data`.
In the aggregated branch the source constructs the results object as
`RegressionPredictedVsActualScatterResults(current=current_agg,
reference_agg=reference_agg)`; `reference_agg` is a class property, not a
pydantic field, so the keyword is ignored by the model constructor and the
`reference` field keeps its default `None` — the embedding reproduces that. -/
def calculate (agg_data : Bool) (data : InputData) :
    Except String RegressionPredictedVsActualScatterResults :=
  let dataset_columns := process_columns data.current_data data.column_mapping
  match dataset_columns.target, dataset_columns.prediction with
  | none, _ => .error "The columns 'target' and 'prediction' columns should be present"
  | some _, none => .error "The columns 'target' and 'prediction' columns should be present"
  | some _, some (Sum.inr _) => .error "Expect one column for prediction. List of columns was provided."
  | some target_name, some (Sum.inl prediction_name) =>
    if !agg_data then
      let curr_df := make_df_for_plot data.current_data target_name prediction_name none
      let current_scatter : ScatterData :=
        .raw ⟨curr_df.map (fun r => r.get prediction_name), curr_df.map (fun r => r.get target_name)⟩
      let reference_scatter : Option ScatterData :=
        match data.reference_data with
        | some rdf =>
          let ref_df := make_df_for_plot rdf target_name prediction_name none
          some (.raw ⟨ref_df.map (fun r => r.get prediction_name), ref_df.map (fun r => r.get target_name)⟩)
        | none => none
      .ok ⟨current_scatter, reference_scatter⟩
    else
      .ok ⟨.agg ⟨[("a", 1), ("b", 2)]⟩, none⟩

/-- Definition following the words of the claim about raw-path ordering: it
differs from `calculate` only in passing the configured datetime column of
the mapping to the row filter, instead of the source's hard-coded `None`.
Used to compare the claimed behaviour with the source's. -/
def calculateClaimedTimeOrder (agg_data : Bool) (data : InputData) :
    Except String RegressionPredictedVsActualScatterResults :=
  let dataset_columns := process_columns data.current_data data.column_mapping
  match dataset_columns.target, dataset_columns.prediction with
  | none, _ => .error "The columns 'target' and 'prediction' columns should be present"
  | some _, none => .error "The columns 'target' and 'prediction' columns should be present"
  | some _, some (Sum.inr _) => .error "Expect one column for prediction. List of columns was provided."
  | some target_name, some (Sum.inl prediction_name) =>
    if !agg_data then
      let dtc := data.column_mapping.datetime
      let curr_df := make_df_for_plot data.current_data target_name prediction_name dtc
      let current_scatter : ScatterData :=
        .raw ⟨curr_df.map (fun r => r.get prediction_name), curr_df.map (fun r => r.get target_name)⟩
      let reference_scatter : Option ScatterData :=
        match data.reference_data with
        | some rdf =>
          let ref_df := make_df_for_plot rdf target_name prediction_name dtc
          some (.raw ⟨ref_df.map (fun r => r.get prediction_name), ref_df.map (fun r => r.get target_name)⟩)
        | none => none
      .ok ⟨current_scatter, reference_scatter⟩
    else
      .ok ⟨.agg ⟨[("a", 1), ("b", 2)]⟩, none⟩

/-- A row is kept by the raw-path filter iff its target and prediction cells
are finite numbers (neither missing, NaN, nor infinite). -/
def keptRow (t p : String) (r : Row) : Bool :=
  (r.get t).isFiniteVal && (r.get p).isFiniteVal

/-- A concrete metric instance.  Its `name` models the type-derived identity
`get_id()` (class name plus options), which is also the grouping key of the
tabular view. -/
structure Metric where
  name : String
deriving DecidableEq, Repr

/-- A Python runtime value that can flow through the expansion loop: either a
`Metric` instance or some other object (`tag` is its printable identity). -/
inductive PyObj where
  | metric (m : Metric)
  | other (tag : String)
deriving DecidableEq, Repr

/-- The `get_id()` of an expanded item; for a non-metric object this is the
object's own identity string. -/
def PyObj.get_id : PyObj → String
  | .metric m => m.name
  | .other t => t

/-- Embedding of `BaseGenerator`: `generate(columns_info)` yields a list of
objects (intended to be metrics); `tag` is the generator's printable identity
used in the error message `f"Incorrect metric type in generator {item}"`. -/
structure BaseGenerator where
  tag : String
  generate : UtilityColumns → List PyObj

/-- An item yielded by `MetricPreset.generate_metrics`: either a nested
generator or a direct object. -/
inductive PresetItem where
  | generator (g : BaseGenerator)
  | obj (o : PyObj)

/-- Embedding of `MetricPreset`: `generate_metrics(data, columns)` yields a
list of preset items. -/
structure MetricPreset where
  generate_metrics : InputData → UtilityColumns → List PresetItem

/-- An entry of the `Report.metrics` specification list: the source annotates
it `Union[Metric, MetricPreset, BaseGenerator]`, but Python does not enforce
the annotation, so any other object (`other`) can appear. -/
inductive SpecItem where
  | metric (m : Metric)
  | preset (p : MetricPreset)
  | generator (g : BaseGenerator)
  | other (tag : String)

/-- Modelled from the spec: the `Context` owned by a `Suite`
(`evidently.suite.base_suite`, not shipped under src/) holds the registered
metrics in registration order and their computed results keyed by position;
`reset` empties it.  `ρ` is the type of computed results. -/
structure Context (ρ : Type) where
  metrics : List PyObj
  results : List ρ
deriving DecidableEq, Repr

/-- Modelled from the spec: `Suite.reset` discards all prior Context state. -/
def Context.reset {ρ : Type} : Context ρ :=
  ⟨[], []⟩

/-- Embedding of `Report`: identity, metadata, the raw specification list,
the accumulated first-level metrics, and the inner suite's context. -/
structure Report (ρ : Type) where
  id : Nat
  timestamp : Int
  metadata : List (String × String)
  metrics : List SpecItem
  first_level_metrics : List PyObj
  context : Context ρ

/-- Embedding of `Report.__init__`: stores the specification list, creates a
fresh suite, and starts with empty first-level metrics.  `id` and `timestamp`
default to fresh values at construction; the embedding takes them as zero. -/
def Report.fresh {ρ : Type} (items : List SpecItem) : Report ρ :=
  ⟨0, 0, [], items, [], Context.reset⟩

/-- The paired side effect of expansion: `self._first_level_metrics.append(m)`
together with `self._inner_suite.add_metric(m)` (registration into the
suite's context, modelled from the spec). -/
def addMetric {ρ : Type} (r : Report ρ) (m : PyObj) : Report ρ :=
  { r with
    first_level_metrics := r.first_level_metrics ++ [m]
    context := { r.context with metrics := r.context.metrics ++ [m] } }

/-- Iterated `addMetric` over a whole list, in order. -/
def addAll {ρ : Type} (os : List PyObj) (r : Report ρ) : Report ρ :=
  os.foldl addMetric r

/-- The inner loop of the top-level generator branch: append each generated
object if it is a `Metric`, otherwise stop with the error naming the
generator. -/
def genAppend {ρ : Type} (gtag : String) : List PyObj → Report ρ → Report ρ × Option String
  | [], r => (r, none)
  | .metric m :: os, r => genAppend gtag os (addMetric r (.metric m))
  | .other _ :: _, r => (r, some ("Incorrect metric type in generator " ++ gtag))

/-- The `metrics` list a preset branch collects before appending: preset
items in order, with each nested generator's output spliced in place and no
type check on any produced object. -/
def presetMetrics (cols : UtilityColumns) (data : InputData) (p : MetricPreset) : List PyObj :=
  (p.generate_metrics data cols).flatMap (fun
    | .generator g => g.generate cols
    | .obj o => [o])

/-- The constant message of the invalid-spec-item error. -/
def invalidItemMsg : String :=
  "Incorrect item instead of a metric or metric preset was passed to Report"

/-- The message of the missing-current-data error. -/
def missingCurrentMsg : String :=
  "Current dataset should be present"

/-- The specification-expansion loop of `Report.run` (its `for item in
self.metrics` loop), threading the partially mutated report; returns the
state at exit together with the raised error, if any. -/
def expandInto {ρ : Type} (cols : UtilityColumns) (data : InputData) :
    List SpecItem → Report ρ → Report ρ × Option String
  | [], r => (r, none)
  | .generator g :: rest, r =>
    match genAppend g.tag (g.generate cols) r with
    | (r', none) => expandInto cols data rest r'
    | (r', some e) => (r', some e)
  | .preset p :: rest, r => expandInto cols data rest (addAll (presetMetrics cols data p) r)
  | .metric m :: rest, r => expandInto cols data rest (addMetric r (.metric m))
  | .other _ :: _, r => (r, some invalidItemMsg)

/-- Embedding of `Report.run`.  `calc` stands for the metric computations the
suite executor invokes (`Metric.calculate`); the final
`self._inner_suite.run_calculate(data)` is modelled from the spec as
computing one result per registered metric, in order.  Returns the report
state at exit plus the raised error, if any; on the missing-current-data
error the state is returned untouched because the check precedes every
mutation. -/
def Report.run {ρ : Type} (r : Report ρ) (calcFn : PyObj → InputData → ρ)
    (reference_data : Option DFrame) (current_data : Option DFrame)
    (column_mapping : Option ColumnMapping) : Report ρ × Option String :=
  let cm := column_mapping.getD default
  match current_data with
  | none => (r, some missingCurrentMsg)
  | some cur =>
    let cols := process_columns cur cm
    let r1 : Report ρ := { r with context := Context.reset }
    let data : InputData := ⟨reference_data, cur, cm⟩
    match expandInto cols data r.metrics r1 with
    | (r2, some e) => (r2, some e)
    | (r2, none) =>
      let r3 : Report ρ :=
        { r2 with context := { r2.context with
            results := r2.context.metrics.map (fun m => calcFn m data) } }
      (r3, none)

/-- The spliced expansion of a single specification item: a metric stands for
itself, a generator for its generated objects, a preset for its generated
items with nested generators expanded in place; an invalid item expands to
nothing (it raises instead). -/
def SpecItem.expandItem (cols : UtilityColumns) (data : InputData) : SpecItem → List PyObj
  | .metric m => [PyObj.metric m]
  | .generator g => g.generate cols
  | .preset p => presetMetrics cols data p
  | .other _ => []

/-- A specification item whose expansion raises no error: metrics and presets
always pass; a generator must yield only metrics; any other object fails. -/
def SpecItem.ok (cols : UtilityColumns) : SpecItem → Prop
  | .metric _ => True
  | .generator g => ∀ o ∈ g.generate cols, ∃ m, o = PyObj.metric m
  | .preset _ => True
  | .other _ => False

/-- First index of an element in a list (`list.index`), `none` if absent. -/
def idxOfOpt {α : Type} [DecidableEq α] (a : α) : List α → Option Nat
  | [] => none
  | b :: l => if a = b then some 0 else (idxOfOpt a l).map (· + 1)

/-- Option-valued traversal of a list: `some` of the mapped list when `f`
succeeds everywhere, `none` as soon as it fails (a Python list comprehension
whose body may raise). -/
def optMap {α β : Type} (f : α → Option β) : List α → Option (List β)
  | [] => some []
  | a :: l =>
    match f a, optMap f l with
    | some b, some bs => some (b :: bs)
    | _, _ => none

/-- Modelled from the spec: `ContextPayload` (`evidently.suite.base_suite`,
not shipped under src/) snapshots a context verbatim — all executed metrics
with their results, in registration order. -/
structure ContextPayload (ρ : Type) where
  metrics : List PyObj
  results : List ρ
deriving DecidableEq, Repr

/-- Modelled from the spec: `ContextPayload.from_context` snapshots the
context verbatim. -/
def ContextPayload.from_context {ρ : Type} (c : Context ρ) : ContextPayload ρ :=
  ⟨c.metrics, c.results⟩

/-- Modelled from the spec: `ContextPayload.to_context` reconstructs a
context verbatim from the snapshot. -/
def ContextPayload.to_context {ρ : Type} (p : ContextPayload ρ) : Context ρ :=
  ⟨p.metrics, p.results⟩

/-- Embedding of `_ReportPayload`. -/
structure ReportPayload (ρ : Type) where
  id : Nat
  suite : ContextPayload ρ
  metrics_ids : List Nat
  timestamp : Int
  metadata : List (String × String)
deriving DecidableEq, Repr

/-- Embedding of `Report._get_payload`: snapshot the context and record the
first index of each first-level metric in the snapshot's metric list
(`suite.metrics.index(m)`; Python raises if a metric is absent, hence
`Option`). -/
def Report.get_payload {ρ : Type} (r : Report ρ) : Option (ReportPayload ρ) :=
  let suite := ContextPayload.from_context r.context
  (optMap (fun m => idxOfOpt m suite.metrics) r.first_level_metrics).map
    (fun ids => ⟨r.id, suite, ids, r.timestamp, r.metadata⟩)

/-- A loaded metric list entry re-enters the specification list typed as a
spec item (`Report(metrics=metrics, ...)` in `_ReportPayload.load`). -/
def PyObj.toSpecItem : PyObj → SpecItem
  | .metric m => .metric m
  | .other t => .other t

/-- Embedding of `_ReportPayload.load`: rebuild the context from the
snapshot, recover the first-level metrics by indexing `metrics_ids` into the
context's metric list (Python raises on an out-of-range index, hence
`Option`), construct a fresh report and wire the context in. -/
def ReportPayload.load {ρ : Type} (p : ReportPayload ρ) : Option (Report ρ) :=
  let ctx := p.suite.to_context
  (optMap (fun i => ctx.metrics[i]?) p.metrics_ids).map
    (fun metrics =>
      { id := p.id
        timestamp := p.timestamp
        metadata := p.metadata
        metrics := metrics.map PyObj.toSpecItem
        first_level_metrics := metrics
        context := ctx })

/-- The stored result of a metric: position-keyed lookup in the context
(modelled from the spec: results are stored keyed by the metric's position). -/
def resultOf {ρ : Type} (r : Report ρ) (m : PyObj) : Option ρ :=
  (idxOfOpt m r.context.metrics).bind (fun i => r.context.results.get? i)

/-- Embedding of `Report.as_dict`: one entry per first-level metric, in
order, pairing the metric id with the rendered result.  The renderer
(`find_metric_renderer` + `render_json`, not shipped under src/) is modelled
from the spec as an arbitrary function of the metric, its stored result, and
the per-metric include/exclude filters looked up by metric id. -/
def Report.as_dict {ρ σ : Type} (r : Report ρ)
    (render_json : PyObj → Option ρ → Option String → Option String → σ)
    (inc exc : List (String × String)) : List (String × σ) :=
  r.first_level_metrics.map (fun m =>
    (m.get_id, render_json m (resultOf r m) (inc.lookup m.get_id) (exc.lookup m.get_id)))

/-- Append a rendered table to its group, preserving first-insertion key
order (a Python `defaultdict` keyed by metric id). -/
def upsert {τ : Type} (key : String) (v : List τ) :
    List (String × List (List τ)) → List (String × List (List τ))
  | [] => [(key, [v])]
  | (k, vs) :: rest => if k = key then (k, vs ++ [v]) :: rest else (k, vs) :: upsert key v rest

/-- One step of the `as_pandas` grouping loop: skip the metric when a group
is requested and the metric id differs, else append its rendered table. -/
def stepGroup {τ : Type} (f : PyObj → List τ) (group : Option String)
    (acc : List (String × List (List τ))) (m : PyObj) : List (String × List (List τ)) :=
  match group with
  | some g => if m.get_id = g then upsert m.get_id (f m) acc else acc
  | none => upsert m.get_id (f m) acc

/-- The value `as_pandas` returns: a single table or a mapping from group
name to table. -/
inductive PandasResult (τ : Type) where
  | single (t : List τ)
  | mapping (m : List (String × List τ))
deriving DecidableEq, Repr

/-- Embedding of `Report.as_pandas`.  A table is a list of rendered rows of
type `τ`; `render_pandas` (the renderer, not shipped under src/) is modelled
from the spec as an arbitrary per-metric table; `pd.concat` is list join. -/
def Report.as_pandas {ρ τ : Type} (r : Report ρ) (render_pandas : PyObj → List τ)
    (group : Option String) : Except String (PandasResult τ) :=
  let grouped := r.first_level_metrics.foldl (stepGroup render_pandas group) []
  let result := grouped.map (fun kv => (kv.1, kv.2.flatten))
  match group with
  | none =>
    match result with
    | [s] => .ok (.single s.2)
    | _ => .ok (.mapping result)
  | some g =>
    match result.lookup g with
    | some tbl => .ok (.single tbl)
    | none => .error ("Metric group " ++ g ++ " not found in this report")

/-- The tables of one group, in first-level order: the rendered tables of the
first-level metrics whose id is the group name. -/
def groupRenders {τ : Type} (f : PyObj → List τ) (flm : List PyObj) (g : String) :
    List (List τ) :=
  (flm.filter (fun m => m.get_id = g)).map f

/-- Decidable equality on `Except`, for evaluating embedded computations. -/
instance {ε α : Type} [DecidableEq ε] [DecidableEq α] : DecidableEq (Except ε α) := fun x y =>
  match x, y with
  | .ok a, .ok b =>
    if h : a = b then .isTrue (by rw [h]) else .isFalse (fun hc => h (Except.ok.inj hc))
  | .error a, .error b =>
    if h : a = b then .isTrue (by rw [h]) else .isFalse (fun hc => h (Except.error.inj hc))
  | .ok _, .error _ => .isFalse (fun hc => Except.noConfusion hc)
  | .error _, .ok _ => .isFalse (fun hc => Except.noConfusion hc)

/-! ### Lemmas about the dataframe operations -/

theorem lookup_map_val (c : String) (l : List (String × EVal)) (f : EVal → EVal) :
    List.lookup c (l.map (fun p => (p.1, f p.2))) = (List.lookup c l).map f := by
  induction l with
  | nil => rfl
  | cons hd tl ih =>
    simp only [List.map, List.lookup]
    split <;> simp [ih]

theorem Row.get_deInf (r : Row) (c : String) : (r.deInf).get c = (r.get c).deInf := by
  unfold Row.deInf Row.get
  rw [lookup_map_val]
  cases List.lookup c r.cells <;> rfl

theorem EVal.deInf_beq_nan (x : EVal) : (x.deInf == EVal.nan) = !x.isFiniteVal := by
  cases x <;> rfl

theorem Row.hasNa_deInf (t p : String) (r : Row) :
    (r.deInf).hasNa [t, p] = !keptRow t p r := by
  simp [Row.hasNa, keptRow, Row.get_deInf, EVal.deInf_beq_nan, Bool.or_comm]

theorem dropna_replaceInf (df : DFrame) (t p : String) :
    dropna (replaceInfWithNan df) [t, p] = (df.filter (keptRow t p)).map Row.deInf := by
  unfold dropna replaceInfWithNan
  rw [List.filter_map]
  congr 1
  apply List.filter_congr
  intro r _
  simp [Function.comp, Row.hasNa_deInf]

theorem insertByKey_map (key : Row → Row → Bool) (f : Row → Row)
    (hk : ∀ a b, key (f a) (f b) = key a b) (a : Row) (l : List Row) :
    insertByKey key (f a) (l.map f) = (insertByKey key a l).map f := by
  induction l with
  | nil => rfl
  | cons b tl ih =>
    simp only [List.map, insertByKey, hk]
    by_cases h : key a b <;> simp [h, ih]

theorem sortByKey_map (key : Row → Row → Bool) (f : Row → Row)
    (hk : ∀ a b, key (f a) (f b) = key a b) (l : List Row) :
    sortByKey key (l.map f) = (sortByKey key l).map f := by
  induction l with
  | nil => rfl
  | cons a tl ih => simp only [List.map, sortByKey, ih, insertByKey_map key f hk]

theorem insertByKey_perm (key : Row → Row → Bool) (a : Row) (l : List Row) :
    (insertByKey key a l).Perm (a :: l) := by
  induction l with
  | nil => exact List.Perm.refl _
  | cons b tl ih =>
    unfold insertByKey
    by_cases h : key a b
    · simp [h]
    · simp only [h, if_false, Bool.false_eq_true]
      exact (ih.cons b).trans (List.Perm.swap a b tl)

theorem sortByKey_perm (key : Row → Row → Bool) (l : List Row) :
    (sortByKey key l).Perm l := by
  induction l with
  | nil => exact List.Perm.refl _
  | cons a tl ih => exact (insertByKey_perm key a _).trans (ih.cons a)

theorem mem_sortByKey {key : Row → Row → Bool} {l : List Row} {a : Row} :
    a ∈ sortByKey key l ↔ a ∈ l :=
  (sortByKey_perm key l).mem_iff

theorem sortByKey_sorted_eq (key : Row → Row → Bool) (l : List Row)
    (h : List.Chain' (fun a b => key a b = true) l) : sortByKey key l = l := by
  induction l with
  | nil => rfl
  | cons a tl ih =>
    simp only [sortByKey, ih h.tail]
    cases tl with
    | nil => rfl
    | cons b tl2 =>
      have hab : key a b = true := (List.chain'_cons.mp h).1
      simp [insertByKey, hab]

theorem make_df_none_eq (df : DFrame) (t p : String) :
    make_df_for_plot df t p none = (sortByIdx (df.filter (keptRow t p))).map Row.deInf := by
  show sortByKey (plotOrderKey none) (dropna (replaceInfWithNan df) [t, p])
    = (sortByKey (plotOrderKey none) (df.filter (keptRow t p))).map Row.deInf
  rw [dropna_replaceInf]
  exact sortByKey_map (plotOrderKey none) Row.deInf (fun a b => rfl) _

theorem get_deInf_of_finite (r : Row) (c : String) (h : (r.get c).isFiniteVal = true) :
    (r.deInf).get c = r.get c := by
  rw [Row.get_deInf]
  cases hv : r.get c <;> simp_all [EVal.isFiniteVal, EVal.deInf]

theorem row_deInf_id (r : Row) (h : ∀ q ∈ r.cells, q.2 ≠ EVal.pinf ∧ q.2 ≠ EVal.ninf) :
    r.deInf = r := by
  unfold Row.deInf
  cases r with
  | mk idx cells =>
    simp only [Row.mk.injEq, true_and]
    have : cells.map (fun q => (q.1, q.2.deInf)) = cells.map id := by
      apply List.map_congr_left
      rintro ⟨q1, q2⟩ hq
      have hq2 := h (q1, q2) hq
      cases q2 <;> simp_all [EVal.deInf]
    rw [this, List.map_id]

/-- The columns projected out of a filtered-and-sorted dataframe are not
affected by the infinity replacement, because kept rows are finite there. -/
theorem map_get_sorted_filtered (df : DFrame) (t p c : String)
    (hc : ∀ r : Row, keptRow t p r = true → (r.get c).isFiniteVal = true) :
    ((sortByIdx (df.filter (keptRow t p))).map Row.deInf).map (fun r => r.get c)
      = (sortByIdx (df.filter (keptRow t p))).map (fun r => r.get c) := by
  rw [List.map_map]
  apply List.map_congr_left
  intro r hr
  have hmem : r ∈ df.filter (keptRow t p) := mem_sortByKey.mp hr
  have hkept : keptRow t p r = true := (List.mem_filter.mp hmem).2
  exact get_deInf_of_finite r c (hc r hkept)

theorem keptRow_target {t p : String} {r : Row} (h : keptRow t p r = true) :
    (r.get t).isFiniteVal = true := by
  simp only [keptRow, Bool.and_eq_true] at h
  exact h.1

theorem keptRow_prediction {t p : String} {r : Row} (h : keptRow t p r = true) :
    (r.get p).isFiniteVal = true := by
  simp only [keptRow, Bool.and_eq_true] at h
  exact h.2

/-! ### Claims about the predicted-vs-actual metric (C3, C5, C9) -/

/-- A concrete input with reference data present, target column `t` and
single prediction column `p`. -/
def c3Input : InputData :=
  ⟨some [⟨0, [("t", EVal.num 1), ("p", EVal.num 1)]⟩],
   [⟨0, [("t", EVal.num 1), ("p", EVal.num 1)]⟩],
   ⟨some "t", some (Sum.inl "p"), none⟩⟩

/-- C3: with `agg_data = true` and reference data present, `calculate`
returns a result whose `reference` side is `None`: the computed aggregated
reference is passed through the ignored constructor keyword `reference_agg`
and dropped, so the reference side does not mirror the current side's
aggregated representation — contradicting the claim.  The raw branch, by
contrast, does populate the reference side at the same input. -/
theorem C3_agg_reference_dropped :
    c3Input.reference_data ≠ none ∧
    calculate true c3Input = Except.ok ⟨ScatterData.agg ⟨[("a", 1), ("b", 2)]⟩, none⟩ ∧
    (∃ s, calculate false c3Input = Except.ok s ∧
      (∃ pa, s.current = ScatterData.raw pa) ∧ s.reference ≠ none) := by
  refine ⟨by decide, by decide,
    ⟨⟨ScatterData.raw ⟨[EVal.num 1], [EVal.num 1]⟩,
      some (ScatterData.raw ⟨[EVal.num 1], [EVal.num 1]⟩)⟩,
     by decide, ⟨⟨[EVal.num 1], [EVal.num 1]⟩, by decide⟩, by decide⟩⟩

/-- A concrete input whose mapping configures datetime column `"d"`, with
finite target/prediction values and datetime values in reverse index order. -/
def c5CounterIn : InputData :=
  ⟨none,
   [⟨0, [("t", EVal.num 3), ("p", EVal.num 30), ("d", EVal.num 10)]⟩,
    ⟨1, [("t", EVal.num 4), ("p", EVal.num 40), ("d", EVal.num 5)]⟩],
   ⟨some "t", some (Sum.inl "p"), some "d"⟩⟩

/-- C5 counterexample: the claim says that when a time column is configured
the raw path orders rows by it, but `calculate` hard-codes `None` for the
filter's datetime parameter, so at this input (datetime configured, datetime
order opposite to index order) the source's result differs from the claimed
time-ordered variant `calculateClaimedTimeOrder`. -/
theorem C5_time_column_counterexample :
    c5CounterIn.column_mapping.datetime = some "d" ∧
    calculate false c5CounterIn ≠ calculateClaimedTimeOrder false c5CounterIn := by decide

/-- C5 (amended): with `agg_data = false`, `calculate` drops the rows whose
target or prediction cell is non-finite or missing, always orders the
remaining rows by original row index (the configured time column is never
consulted), packages the target/prediction columns into the raw result,
mirrors the same treatment on the reference table when present, returns no
reference side when reference data is absent, and — when the input's indices
are strictly increasing — keeps the surviving rows in their original
relative order. -/
theorem C5_raw_filter_order_amended (inp : InputData) (t p : String)
    (ht : inp.column_mapping.target = some t)
    (hp : inp.column_mapping.prediction = some (Sum.inl p)) :
    ∃ res, calculate false inp = Except.ok res ∧
      res.current = ScatterData.raw
        ⟨(sortByIdx (inp.current_data.filter (keptRow t p))).map (fun r => r.get p),
         (sortByIdx (inp.current_data.filter (keptRow t p))).map (fun r => r.get t)⟩ ∧
      (inp.reference_data = none → res.reference = none) ∧
      (∀ rdf, inp.reference_data = some rdf → res.reference = some (ScatterData.raw
        ⟨(sortByIdx (rdf.filter (keptRow t p))).map (fun r => r.get p),
         (sortByIdx (rdf.filter (keptRow t p))).map (fun r => r.get t)⟩)) ∧
      (inp.current_data.Pairwise (fun a b => a.idx < b.idx) →
        sortByIdx (inp.current_data.filter (keptRow t p)) = inp.current_data.filter (keptRow t p)) := by
  obtain ⟨ref, cur, cm⟩ := inp
  simp only at ht hp
  have hproj : ∀ df : DFrame, (make_df_for_plot df t p none).map (fun r => r.get p)
      = (sortByIdx (df.filter (keptRow t p))).map (fun r => r.get p) := by
    intro df
    rw [make_df_none_eq]
    exact map_get_sorted_filtered df t p p (fun r h => keptRow_prediction h)
  have hproj' : ∀ df : DFrame, (make_df_for_plot df t p none).map (fun r => r.get t)
      = (sortByIdx (df.filter (keptRow t p))).map (fun r => r.get t) := by
    intro df
    rw [make_df_none_eq]
    exact map_get_sorted_filtered df t p t (fun r h => keptRow_target h)
  have hcalc : calculate false ⟨ref, cur, cm⟩ = Except.ok
      ⟨ScatterData.raw ⟨(make_df_for_plot cur t p none).map (fun r => r.get p),
                        (make_df_for_plot cur t p none).map (fun r => r.get t)⟩,
       match ref with
       | some rdf => some (ScatterData.raw
           ⟨(make_df_for_plot rdf t p none).map (fun r => r.get p),
            (make_df_for_plot rdf t p none).map (fun r => r.get t)⟩)
       | none => none⟩ := by
    simp only [calculate, process_columns, ht, hp, Bool.not_false, if_true]
  refine ⟨_, hcalc, ?_, ?_, ?_, ?_⟩
  · simp only [hproj, hproj']
  · intro h
    dsimp only at h
    subst h
    rfl
  · intro rdf h
    dsimp only at h
    subst h
    simp only [hproj, hproj']
  · intro hpw
    exact sortByKey_sorted_eq _ _
      (((hpw.filter (keptRow t p)).imp (fun h => decide_eq_true (le_of_lt h))).chain')

/-- The spec's raw-path scenario: `target=[1,2,3]`,
`prediction=[1.1,2.5,2.9]`, no reference, indices `0,1,2`. -/
def c5ScenarioIn : InputData :=
  ⟨none,
   [⟨0, [("target", EVal.num 1), ("prediction", EVal.num (11 / 10))]⟩,
    ⟨1, [("target", EVal.num 2), ("prediction", EVal.num (5 / 2))]⟩,
    ⟨2, [("target", EVal.num 3), ("prediction", EVal.num (29 / 10))]⟩],
   ⟨some "target", some (Sum.inl "prediction"), none⟩⟩

/-- Witness for the amended C5 theorem at the spec's scenario input. -/
theorem C5_raw_filter_order_amended_witness :
    c5ScenarioIn.column_mapping.target = some "target" ∧
    c5ScenarioIn.column_mapping.prediction = some (Sum.inl "prediction") ∧
    ∃ res, calculate false c5ScenarioIn = Except.ok res ∧
      res.current = ScatterData.raw
        ⟨(sortByIdx (c5ScenarioIn.current_data.filter (keptRow "target" "prediction"))).map
            (fun r => r.get "prediction"),
         (sortByIdx (c5ScenarioIn.current_data.filter (keptRow "target" "prediction"))).map
            (fun r => r.get "target")⟩ ∧
      (c5ScenarioIn.reference_data = none → res.reference = none) ∧
      (∀ rdf, c5ScenarioIn.reference_data = some rdf → res.reference = some (ScatterData.raw
        ⟨(sortByIdx (rdf.filter (keptRow "target" "prediction"))).map (fun r => r.get "prediction"),
         (sortByIdx (rdf.filter (keptRow "target" "prediction"))).map (fun r => r.get "target")⟩)) ∧
      (c5ScenarioIn.current_data.Pairwise (fun a b => a.idx < b.idx) →
        sortByIdx (c5ScenarioIn.current_data.filter (keptRow "target" "prediction"))
          = c5ScenarioIn.current_data.filter (keptRow "target" "prediction")) :=
  ⟨rfl, rfl, C5_raw_filter_order_amended c5ScenarioIn "target" "prediction" rfl rfl⟩

/-- A dataframe satisfying the claim's premises (finite target/prediction,
sorted by the supplied datetime column under NaN-last ordering) on which the
raw-path filter is nevertheless not the identity: an infinity in an
unrelated column is rewritten to NaN, and a missing datetime value causes
the row to be dropped. -/
def c9CounterDf : DFrame :=
  [⟨0, [("t", EVal.num 1), ("p", EVal.num 1), ("d", EVal.num 1), ("x", EVal.pinf)]⟩,
   ⟨1, [("t", EVal.num 2), ("p", EVal.num 2), ("d", EVal.nan)]⟩]

/-- C9 counterexample: the premises of the claim hold at `c9CounterDf`
(no non-finite or missing value in the target and prediction columns;
already in the filter's datetime order), yet the filter does not return an
identical dataset. -/
theorem C9_idempotence_counterexample :
    (∀ r ∈ c9CounterDf, (Row.get r "t").isFiniteVal = true ∧ (Row.get r "p").isFiniteVal = true) ∧
    List.Chain' (fun a b => plotOrderKey (some "d") a b = true) c9CounterDf ∧
    make_df_for_plot c9CounterDf "t" "p" (some "d") ≠ c9CounterDf := by
  refine ⟨by decide, ?_, by decide⟩
  simp only [c9CounterDf, List.chain'_cons, List.chain'_singleton, and_true]
  decide

/-- C9 (amended): the raw-path filter is the identity on a dataframe with no
infinite value in any column, no missing value in the target and prediction
columns (nor in the datetime column when one is supplied), that is already
in the required order. -/
theorem C9_filter_idempotent_amended (df : DFrame) (t p : String) (dtc : Option String)
    (hfin : ∀ r ∈ df, ∀ q ∈ r.cells, q.2 ≠ EVal.pinf ∧ q.2 ≠ EVal.ninf)
    (hna : ∀ r ∈ df, r.hasNa ([t, p] ++ dtc.toList) = false)
    (hsorted : List.Chain' (fun a b => plotOrderKey dtc a b = true) df) :
    make_df_for_plot df t p dtc = df := by
  have hrep : replaceInfWithNan df = df := by
    unfold replaceInfWithNan
    have h1 : df.map Row.deInf = df.map id :=
      List.map_congr_left (fun r hr => row_deInf_id r (hfin r hr))
    rw [h1, List.map_id]
  cases dtc with
  | none =>
    show sortByKey (plotOrderKey none) (dropna (replaceInfWithNan df) [t, p]) = df
    rw [hrep]
    have hdrop : dropna df [t, p] = df := by
      apply List.filter_eq_self.mpr
      intro r hr
      have h2 := hna r hr
      simp only [Option.toList, List.append_nil] at h2
      simp [h2]
    rw [hdrop]
    exact sortByKey_sorted_eq _ _ hsorted
  | some d =>
    show sortByKey (plotOrderKey (some d)) (dropna (replaceInfWithNan df) [t, p, d]) = df
    rw [hrep]
    have hdrop : dropna df [t, p, d] = df := by
      apply List.filter_eq_self.mpr
      intro r hr
      have h2 := hna r hr
      simp only [Option.toList, List.cons_append, List.nil_append] at h2
      simp [h2]
    rw [hdrop]
    exact sortByKey_sorted_eq _ _ hsorted

/-- A clean, already-sorted dataframe for the C9 witness. -/
def c9GoodDf : DFrame :=
  [⟨0, [("t", EVal.num 1), ("p", EVal.num 2)]⟩,
   ⟨1, [("t", EVal.num 3), ("p", EVal.num 4)]⟩]

/-- Witness for the amended C9 theorem at a concrete clean dataframe. -/
theorem C9_filter_idempotent_amended_witness :
    (∀ r ∈ c9GoodDf, ∀ q ∈ r.cells, q.2 ≠ EVal.pinf ∧ q.2 ≠ EVal.ninf) ∧
    (∀ r ∈ c9GoodDf, r.hasNa (["t", "p"] ++ (none : Option String).toList) = false) ∧
    List.Chain' (fun a b => plotOrderKey none a b = true) c9GoodDf ∧
    make_df_for_plot c9GoodDf "t" "p" none = c9GoodDf := by
  have hch : List.Chain' (fun a b => plotOrderKey none a b = true) c9GoodDf := by
    simp only [c9GoodDf, List.chain'_cons, List.chain'_singleton, and_true]
    decide
  exact ⟨by decide, by decide, hch,
    C9_filter_idempotent_amended c9GoodDf "t" "p" none (by decide) (by decide) hch⟩

/-! ### Lemmas about the expansion loop and `Report.run` -/

theorem addAll_spec {ρ : Type} (os : List PyObj) (r : Report ρ) :
    addAll os r = { r with
      first_level_metrics := r.first_level_metrics ++ os
      context := { r.context with metrics := r.context.metrics ++ os } } := by
  induction os generalizing r with
  | nil => simp [addAll]
  | cons o os ih =>
    show addAll os (addMetric r o) = _
    rw [ih]
    simp [addMetric]

theorem genAppend_ok {ρ : Type} (gtag : String) (os : List PyObj) (r : Report ρ)
    (h : ∀ o ∈ os, ∃ m, o = PyObj.metric m) :
    genAppend gtag os r = (addAll os r, none) := by
  induction os generalizing r with
  | nil => rfl
  | cons o os ih =>
    obtain ⟨m, rfl⟩ := h o (List.mem_cons_self o os)
    exact ih (addMetric r (.metric m)) (fun o ho => h o (List.mem_cons_of_mem _ ho))

theorem genAppend_err {ρ : Type} (gtag : String) (os : List PyObj) (r : Report ρ) (t : String)
    (hmem : PyObj.other t ∈ os) :
    (genAppend gtag os r).2 = some ("Incorrect metric type in generator " ++ gtag) := by
  induction os generalizing r with
  | nil => cases hmem
  | cons o os ih =>
    cases o with
    | metric m =>
      have : PyObj.other t ∈ os := by
        rcases List.mem_cons.mp hmem with h | h
        · cases h
        · exact h
      exact ih (addMetric r (.metric m)) this
    | other s => rfl

theorem expandInto_ok {ρ : Type} (cols : UtilityColumns) (data : InputData)
    (items : List SpecItem) (r : Report ρ) (h : ∀ it ∈ items, it.ok cols) :
    expandInto cols data items r =
      (addAll (items.flatMap (SpecItem.expandItem cols data)) r, none) := by
  induction items generalizing r with
  | nil => rfl
  | cons it rest ih =>
    have hrest : ∀ x ∈ rest, x.ok cols := fun x hx => h x (List.mem_cons_of_mem _ hx)
    cases it with
    | metric m =>
      show expandInto cols data rest (addMetric r (.metric m)) = _
      rw [ih _ hrest]
      simp [SpecItem.expandItem, addAll, List.foldl_append]
    | preset p =>
      show expandInto cols data rest (addAll (presetMetrics cols data p) r) = _
      rw [ih _ hrest]
      simp [SpecItem.expandItem, addAll, List.foldl_append]
    | generator g =>
      have hg : ∀ o ∈ g.generate cols, ∃ m, o = PyObj.metric m :=
        h _ (List.mem_cons_self _ _)
      show (match genAppend g.tag (g.generate cols) r with
            | (r', none) => expandInto cols data rest r'
            | (r', some e) => (r', some e)) = _
      rw [genAppend_ok g.tag _ r hg]
      show expandInto cols data rest (addAll (g.generate cols) r) = _
      rw [ih _ hrest]
      simp [SpecItem.expandItem, addAll, List.foldl_append]
    | other t => exact absurd (h _ (List.mem_cons_self _ _)) (fun hh => hh)

theorem expandInto_append {ρ : Type} (cols : UtilityColumns) (data : InputData)
    (xs ys : List SpecItem) (r : Report ρ) :
    expandInto cols data (xs ++ ys) r =
      match expandInto cols data xs r with
      | (r', none) => expandInto cols data ys r'
      | (r', some e) => (r', some e) := by
  induction xs generalizing r with
  | nil => rfl
  | cons it xs ih =>
    cases it with
    | metric m => exact ih (addMetric r (.metric m))
    | preset p => exact ih (addAll (presetMetrics cols data p) r)
    | other t => rfl
    | generator g =>
      simp only [List.cons_append, expandInto]
      cases hg : genAppend g.tag (g.generate cols) r with
      | mk r' e =>
        cases e with
        | none => exact ih r'
        | some msg => rfl

/-- Unfolding of `Report.run` when current data is present. -/
theorem run_some_eq {ρ : Type} (r : Report ρ) (calcFn : PyObj → InputData → ρ)
    (ref : Option DFrame) (cur : DFrame) (cm : Option ColumnMapping) :
    r.run calcFn ref (some cur) cm =
      (match expandInto (process_columns cur (cm.getD default)) ⟨ref, cur, cm.getD default⟩
          r.metrics { r with context := Context.reset } with
       | (r2, some e) => (r2, some e)
       | (r2, none) =>
         ({ r2 with context := { r2.context with
             results := r2.context.metrics.map (fun m => calcFn m ⟨ref, cur, cm.getD default⟩) } },
          none)) := rfl

/-- Shared success-shape lemma for `Report.run`: with current data present
and every specification item valid, the run succeeds, appends the spliced
expansion to the existing first-level metrics, and rebuilds the context from
scratch with exactly the spliced expansion and one result per metric. -/
theorem run_ok_spec {ρ : Type} (r : Report ρ) (calcFn : PyObj → InputData → ρ)
    (ref : Option DFrame) (cur : DFrame) (cm : Option ColumnMapping)
    (h : ∀ it ∈ r.metrics, it.ok (process_columns cur (cm.getD default))) :
    r.run calcFn ref (some cur) cm =
      ({ r with
         first_level_metrics := r.first_level_metrics ++
           r.metrics.flatMap (SpecItem.expandItem (process_columns cur (cm.getD default))
             ⟨ref, cur, cm.getD default⟩)
         context :=
           ⟨r.metrics.flatMap (SpecItem.expandItem (process_columns cur (cm.getD default))
              ⟨ref, cur, cm.getD default⟩),
            (r.metrics.flatMap (SpecItem.expandItem (process_columns cur (cm.getD default))
               ⟨ref, cur, cm.getD default⟩)).map
              (fun m => calcFn m ⟨ref, cur, cm.getD default⟩)⟩ }, none) := by
  rw [run_some_eq]
  rw [expandInto_ok _ _ _ _ h]
  rw [addAll_spec]
  rfl

/-! ### Claims about `Report.run` (C2, C4, C6, C7, C10) -/

/-- C2: for every valid specification list, a run of a freshly constructed
report succeeds and produces `first_level_metrics` (and the suite's
registered metric list) in exactly the spliced expansion order: each item
replaced, in place, by its own expansion. -/
theorem C2_expansion_order {ρ : Type} (r : Report ρ) (calcFn : PyObj → InputData → ρ)
    (ref : Option DFrame) (cur : DFrame) (cm : Option ColumnMapping)
    (h : ∀ it ∈ r.metrics, it.ok (process_columns cur (cm.getD default)))
    (hfresh : r.first_level_metrics = []) :
    (r.run calcFn ref (some cur) cm).2 = none ∧
    (r.run calcFn ref (some cur) cm).1.first_level_metrics =
      r.metrics.flatMap (SpecItem.expandItem (process_columns cur (cm.getD default))
        ⟨ref, cur, cm.getD default⟩) ∧
    (r.run calcFn ref (some cur) cm).1.context.metrics =
      r.metrics.flatMap (SpecItem.expandItem (process_columns cur (cm.getD default))
        ⟨ref, cur, cm.getD default⟩) := by
  rw [run_ok_spec r calcFn ref cur cm h]
  refine ⟨rfl, ?_, rfl⟩
  simp [hfresh]

/-- All claim witnesses evaluate metric computations with this stub. -/
def natCalc : PyObj → InputData → Nat := fun _ _ => 0

/-- The generator `GeneratorE` of the spec's expansion scenario. -/
def genE : BaseGenerator :=
  ⟨"GeneratorE", fun _ => [PyObj.metric ⟨"MetricF"⟩, PyObj.metric ⟨"MetricG"⟩]⟩

/-- The generator `GeneratorC` of the spec's expansion scenario. -/
def genC : BaseGenerator := ⟨"GeneratorC", fun _ => [PyObj.metric ⟨"MetricH"⟩]⟩

/-- The preset `PresetB` of the spec's expansion scenario: `MetricD` followed
by the nested `GeneratorE`. -/
def presetB : MetricPreset :=
  ⟨fun _ _ => [PresetItem.obj (PyObj.metric ⟨"MetricD"⟩), PresetItem.generator genE]⟩

/-- The spec's scenario report `[MetricA, PresetB, GeneratorC]`. -/
def c2Report : Report Nat :=
  Report.fresh [SpecItem.metric ⟨"MetricA"⟩, SpecItem.preset presetB, SpecItem.generator genC]

/-- Witness for C2 at the spec's scenario: the expansion order is
`[MetricA, MetricD, MetricF, MetricG, MetricH]`. -/
theorem C2_expansion_order_witness :
    (∀ it ∈ c2Report.metrics,
      it.ok (process_columns [] ((none : Option ColumnMapping).getD default))) ∧
    c2Report.first_level_metrics = [] ∧
    (c2Report.run natCalc none (some []) none).2 = none ∧
    (c2Report.run natCalc none (some []) none).1.first_level_metrics =
      [PyObj.metric ⟨"MetricA"⟩, PyObj.metric ⟨"MetricD"⟩, PyObj.metric ⟨"MetricF"⟩,
       PyObj.metric ⟨"MetricG"⟩, PyObj.metric ⟨"MetricH"⟩] ∧
    (c2Report.run natCalc none (some []) none).1.context.metrics =
      [PyObj.metric ⟨"MetricA"⟩, PyObj.metric ⟨"MetricD"⟩, PyObj.metric ⟨"MetricF"⟩,
       PyObj.metric ⟨"MetricG"⟩, PyObj.metric ⟨"MetricH"⟩] := by
  have hok : ∀ it ∈ c2Report.metrics,
      it.ok (process_columns [] ((none : Option ColumnMapping).getD default)) := by
    intro it hit
    simp only [c2Report, Report.fresh, List.mem_cons, List.not_mem_nil, or_false] at hit
    rcases hit with rfl | rfl | rfl
    · trivial
    · trivial
    · intro o ho
      simp only [genC] at ho
      obtain rfl := List.mem_singleton.mp ho
      exact ⟨⟨"MetricH"⟩, rfl⟩
  have h2 := C2_expansion_order c2Report natCalc none [] none hok rfl
  exact ⟨hok, rfl, h2.1, h2.2.1.trans (by decide), h2.2.2.trans (by decide)⟩

/-- A one-metric report for the re-run claims. -/
def c4Report : Report Nat := Report.fresh [SpecItem.metric ⟨"MetricA"⟩]

/-- C4 counterexample: running the same one-metric report twice leaves TWO
copies of the metric in `first_level_metrics`, not the single copy the claim
requires — `run` never clears `_first_level_metrics` (only `__init__` does). -/
theorem C4_rerun_counterexample :
    ((c4Report.run natCalc none (some []) none).1.run natCalc none
        (some []) none).1.first_level_metrics
      = [PyObj.metric ⟨"MetricA"⟩, PyObj.metric ⟨"MetricA"⟩] ∧
    ([PyObj.metric ⟨"MetricA"⟩, PyObj.metric ⟨"MetricA"⟩] : List PyObj)
      ≠ [PyObj.metric ⟨"MetricA"⟩] := by decide

/-- C4 (amended): re-running discards all prior Context state (the suite is
reset, so the context afterwards holds exactly one copy of the current
expansion and its results), but first-level-metric state is NOT discarded:
the current expansion is appended to the existing `first_level_metrics`, so
a second run leaves the prior copy followed by a fresh copy. -/
theorem C4_rerun_amended {ρ : Type} (r : Report ρ) (calcFn : PyObj → InputData → ρ)
    (ref : Option DFrame) (cur : DFrame) (cm : Option ColumnMapping)
    (h : ∀ it ∈ r.metrics, it.ok (process_columns cur (cm.getD default))) :
    (r.run calcFn ref (some cur) cm).2 = none ∧
    (r.run calcFn ref (some cur) cm).1.first_level_metrics =
      r.first_level_metrics ++ r.metrics.flatMap
        (SpecItem.expandItem (process_columns cur (cm.getD default)) ⟨ref, cur, cm.getD default⟩) ∧
    (r.run calcFn ref (some cur) cm).1.context.metrics =
      r.metrics.flatMap
        (SpecItem.expandItem (process_columns cur (cm.getD default)) ⟨ref, cur, cm.getD default⟩) := by
  rw [run_ok_spec r calcFn ref cur cm h]
  exact ⟨rfl, rfl, rfl⟩

/-- Witness for the amended C4 theorem, applied to the report state after a
first run, so that it describes a genuine re-run. -/
theorem C4_rerun_amended_witness :
    (∀ it ∈ ((c4Report.run natCalc none (some []) none).1).metrics,
      it.ok (process_columns [] ((none : Option ColumnMapping).getD default))) ∧
    (((c4Report.run natCalc none (some []) none).1.run natCalc none (some []) none).2 = none ∧
     ((c4Report.run natCalc none (some []) none).1.run natCalc none
         (some []) none).1.first_level_metrics =
       ((c4Report.run natCalc none (some []) none).1).first_level_metrics ++
         ((c4Report.run natCalc none (some []) none).1).metrics.flatMap
           (SpecItem.expandItem (process_columns [] ((none : Option ColumnMapping).getD default))
             ⟨none, [], (none : Option ColumnMapping).getD default⟩) ∧
     ((c4Report.run natCalc none (some []) none).1.run natCalc none
         (some []) none).1.context.metrics =
       ((c4Report.run natCalc none (some []) none).1).metrics.flatMap
         (SpecItem.expandItem (process_columns [] ((none : Option ColumnMapping).getD default))
           ⟨none, [], (none : Option ColumnMapping).getD default⟩)) := by
  have hmetrics : ((c4Report.run natCalc none (some []) none).1).metrics
      = [SpecItem.metric ⟨"MetricA"⟩] := rfl
  have hok : ∀ it ∈ ((c4Report.run natCalc none (some []) none).1).metrics,
      it.ok (process_columns [] ((none : Option ColumnMapping).getD default)) := by
    intro it hit
    rw [hmetrics] at hit
    obtain rfl := List.mem_singleton.mp hit
    trivial
  exact ⟨hok, C4_rerun_amended _ natCalc none [] none hok⟩

/-- C6: calling `run` with `current_data = None` fails with the
missing-current-data error, and the report state — including all prior
Context and first-level-metric state — is returned entirely untouched,
because the check precedes the suite reset and the expansion. -/
theorem C6_missing_current {ρ : Type} (r : Report ρ) (calcFn : PyObj → InputData → ρ)
    (ref : Option DFrame) (cm : Option ColumnMapping) :
    r.run calcFn ref none cm = (r, some missingCurrentMsg) := rfl

/-- A report whose only item is an invalid object tagged `itemA`. -/
def c7ReportA : Report Nat := Report.fresh [SpecItem.other "itemA"]

/-- A report whose only item is an invalid object tagged `itemB`. -/
def c7ReportB : Report Nat := Report.fresh [SpecItem.other "itemB"]

/-- C7 counterexample: the invalid-spec error message is one constant string
for every offending item — two runs with distinct offending items produce
identical messages, so the message cannot name the offending item as the
claim requires (the constant plainly contains neither tag). -/
theorem C7_generic_message_counterexample :
    (c7ReportA.run natCalc none (some []) none).2 = some invalidItemMsg ∧
    (c7ReportB.run natCalc none (some []) none).2 = some invalidItemMsg ∧
    "itemA" ≠ "itemB" := ⟨rfl, rfl, by decide⟩

/-- C7 (amended): a specification list containing an item that is no Metric,
Preset or Generator makes `run` fail with the invalid-spec error, but with a
fixed generic message that does not identify the offending item. -/
theorem C7_invalid_item_amended {ρ : Type} (r : Report ρ) (calcFn : PyObj → InputData → ρ)
    (ref : Option DFrame) (cur : DFrame) (cm : Option ColumnMapping)
    (pre rest : List SpecItem) (tag : String)
    (hm : r.metrics = pre ++ SpecItem.other tag :: rest)
    (hpre : ∀ it ∈ pre, it.ok (process_columns cur (cm.getD default))) :
    (r.run calcFn ref (some cur) cm).2 = some invalidItemMsg := by
  rw [run_some_eq, hm, expandInto_append, expandInto_ok _ _ _ _ hpre]
  rfl

/-- A report with one valid metric followed by an invalid item. -/
def c7MixReport : Report Nat :=
  Report.fresh [SpecItem.metric ⟨"M0"⟩, SpecItem.other "bad"]

/-- Witness for the amended C7 theorem at a concrete mixed list. -/
theorem C7_invalid_item_amended_witness :
    c7MixReport.metrics = [SpecItem.metric ⟨"M0"⟩] ++ SpecItem.other "bad" :: [] ∧
    (∀ it ∈ [SpecItem.metric (⟨"M0"⟩ : Metric)],
      it.ok (process_columns [] ((none : Option ColumnMapping).getD default))) ∧
    (c7MixReport.run natCalc none (some []) none).2 = some invalidItemMsg := by
  have hpre : ∀ it ∈ [SpecItem.metric (⟨"M0"⟩ : Metric)],
      it.ok (process_columns [] ((none : Option ColumnMapping).getD default)) := by
    intro it hit
    obtain rfl := List.mem_singleton.mp hit
    trivial
  exact ⟨rfl, hpre,
    C7_invalid_item_amended c7MixReport natCalc none [] none
      [SpecItem.metric ⟨"M0"⟩] [] "bad" rfl hpre⟩

/-- C10: an object produced by a generator nested inside a preset is appended
to `first_level_metrics` and registered into the suite without any type
check — a nested generator yielding a non-metric raises no error and the
non-metric lands in the report — while the same generator at top level makes
the run fail immediately with the error naming the generator. -/
theorem C10_nested_generator_unchecked {ρ : Type} (g : BaseGenerator) (p : MetricPreset)
    (os : List PyObj) (t : String) (calcFn : PyObj → InputData → ρ) (cur : DFrame)
    (hp : ∀ d c, p.generate_metrics d c = [PresetItem.generator g])
    (hg : ∀ c, g.generate c = os)
    (hmem : PyObj.other t ∈ os) :
    ((Report.fresh (ρ := ρ) [SpecItem.preset p]).run calcFn none (some cur) none).2 = none ∧
    ((Report.fresh (ρ := ρ) [SpecItem.preset p]).run calcFn none
        (some cur) none).1.first_level_metrics = os ∧
    ((Report.fresh (ρ := ρ) [SpecItem.generator g]).run calcFn none (some cur) none).2
      = some ("Incorrect metric type in generator " ++ g.tag) := by
  have hok : ∀ it ∈ [SpecItem.preset p],
      it.ok (process_columns cur ((none : Option ColumnMapping).getD default)) := by
    intro it hit
    obtain rfl := List.mem_singleton.mp hit
    trivial
  have hrun := run_ok_spec (Report.fresh (ρ := ρ) [SpecItem.preset p]) calcFn none cur none hok
  refine ⟨?_, ?_, ?_⟩
  · rw [hrun]
  · rw [hrun]
    simp [Report.fresh, SpecItem.expandItem, presetMetrics, hp, hg]
  · have herr := genAppend_err (ρ := ρ) g.tag
      (g.generate (process_columns cur ((none : Option ColumnMapping).getD default)))
      ({ Report.fresh (ρ := ρ) [SpecItem.generator g] with
          context := Context.reset } : Report ρ) t
      (by rw [hg]; exact hmem)
    rw [run_some_eq]
    simp only [expandInto]
    cases hsplit : genAppend g.tag
        (g.generate (process_columns cur ((none : Option ColumnMapping).getD default)))
        ({ Report.fresh (ρ := ρ) [SpecItem.generator g] with
            context := Context.reset } : Report ρ) with
    | mk r' e =>
      rw [hsplit] at herr
      simp only at herr
      subst herr
      rfl

/-- A generator yielding a metric followed by a non-metric object. -/
def c10Gen : BaseGenerator :=
  ⟨"GenX", fun _ => [PyObj.metric ⟨"M"⟩, PyObj.other "oops"]⟩

/-- A preset expanding to just the nested generator `c10Gen`. -/
def c10Preset : MetricPreset := ⟨fun _ _ => [PresetItem.generator c10Gen]⟩

/-- Witness for C10 at a concrete generator/preset pair. -/
theorem C10_nested_generator_unchecked_witness :
    (∀ d c, c10Preset.generate_metrics d c = [PresetItem.generator c10Gen]) ∧
    (∀ c, c10Gen.generate c = [PyObj.metric ⟨"M"⟩, PyObj.other "oops"]) ∧
    PyObj.other "oops" ∈ [PyObj.metric ⟨"M"⟩, PyObj.other "oops"] ∧
    ((Report.fresh (ρ := Nat) [SpecItem.preset c10Preset]).run natCalc none
        (some []) none).2 = none ∧
    ((Report.fresh (ρ := Nat) [SpecItem.preset c10Preset]).run natCalc none
        (some []) none).1.first_level_metrics
      = [PyObj.metric ⟨"M"⟩, PyObj.other "oops"] ∧
    ((Report.fresh (ρ := Nat) [SpecItem.generator c10Gen]).run natCalc none (some []) none).2
      = some ("Incorrect metric type in generator " ++ c10Gen.tag) := by
  have h := C10_nested_generator_unchecked c10Gen c10Preset
    [PyObj.metric ⟨"M"⟩, PyObj.other "oops"] "oops" natCalc []
    (fun _ _ => rfl) (fun _ => rfl) (by decide)
  exact ⟨fun _ _ => rfl, fun _ => rfl, by decide, h.1, h.2.1, h.2.2⟩

/-! ### The persistence round trip (C1) -/

theorem idxOfOpt_get {α : Type} [DecidableEq α] (a : α) (l : List α) (h : a ∈ l) :
    ∃ i, idxOfOpt a l = some i ∧ l[i]? = some a := by
  induction l with
  | nil => cases h
  | cons b l ih =>
    by_cases hab : a = b
    · exact ⟨0, by simp [idxOfOpt, hab], by simp [hab]⟩
    · have hmem : a ∈ l := by
        rcases List.mem_cons.mp h with h1 | h1
        · exact absurd h1 hab
        · exact h1
      obtain ⟨i, h1, h2⟩ := ih hmem
      exact ⟨i + 1, by simp [idxOfOpt, hab, h1], by simpa using h2⟩

/-- Indexing round trip: recording the first index of each element of `l` in
`ms` and then reading those indices back recovers `l` exactly, provided
every element of `l` occurs in `ms`. -/
theorem optMap_idx_roundtrip {α : Type} [DecidableEq α] (l ms : List α)
    (h : ∀ a ∈ l, a ∈ ms) :
    ∃ ids, optMap (fun a => idxOfOpt a ms) l = some ids ∧
      optMap (fun i => ms[i]?) ids = some l := by
  induction l with
  | nil => exact ⟨[], rfl, rfl⟩
  | cons a l ih =>
    obtain ⟨i, hi, hget⟩ := idxOfOpt_get a ms (h a (List.mem_cons_self a l))
    obtain ⟨ids, h1, h2⟩ := ih (fun x hx => h x (List.mem_cons_of_mem _ hx))
    exact ⟨i :: ids, by simp [optMap, hi, h1], by simp [optMap, hget, h2]⟩

/-- C1: for a report whose first-level metrics all occur in its context (as
after any successful run), the payload round trip succeeds and reconstructs
a report with the same id, timestamp, metadata, the identical first-level
metric list (recovered by pure indexing), and the identical context — so in
particular the identical stored results, with no metric computation involved
— whose structured view `as_dict` agrees with the original's for every
renderer and every identical pair of include/exclude filter arguments. -/
theorem C1_persistence_round_trip {ρ : Type} (r : Report ρ)
    (h : ∀ m ∈ r.first_level_metrics, m ∈ r.context.metrics) :
    ∃ pl r2, r.get_payload = some pl ∧ pl.load = some r2 ∧
      r2.id = r.id ∧ r2.timestamp = r.timestamp ∧ r2.metadata = r.metadata ∧
      r2.first_level_metrics = r.first_level_metrics ∧
      r2.context = r.context ∧
      ∀ (σ : Type) (render_json : PyObj → Option ρ → Option String → Option String → σ)
        (inc exc : List (String × String)),
        r2.as_dict render_json inc exc = r.as_dict render_json inc exc := by
  obtain ⟨ids, h1, h2⟩ := optMap_idx_roundtrip r.first_level_metrics r.context.metrics h
  refine ⟨⟨r.id, ⟨r.context.metrics, r.context.results⟩, ids, r.timestamp, r.metadata⟩,
    { id := r.id
      timestamp := r.timestamp
      metadata := r.metadata
      metrics := r.first_level_metrics.map PyObj.toSpecItem
      first_level_metrics := r.first_level_metrics
      context := ⟨r.context.metrics, r.context.results⟩ }, ?_, ?_, rfl, rfl, rfl, rfl, rfl, ?_⟩
  · simp only [Report.get_payload, ContextPayload.from_context]
    rw [h1]
    rfl
  · simp only [ReportPayload.load, ContextPayload.to_context]
    rw [h2]
    rfl
  · intro σ render_json inc exc
    rfl

/-- A concrete already-run report shape for the C1 witness: two first-level
metrics, both present in the context with stored results. -/
def c1Report : Report Nat :=
  ⟨7, 5, [("k", "v")],
   [SpecItem.metric ⟨"M1"⟩, SpecItem.metric ⟨"M2"⟩],
   [PyObj.metric ⟨"M1"⟩, PyObj.metric ⟨"M2"⟩],
   ⟨[PyObj.metric ⟨"M1"⟩, PyObj.metric ⟨"M2"⟩], [10, 20]⟩⟩

/-- Witness for the C1 round-trip theorem at a concrete report. -/
theorem C1_persistence_round_trip_witness :
    (∀ m ∈ c1Report.first_level_metrics, m ∈ c1Report.context.metrics) ∧
    ∃ pl r2, c1Report.get_payload = some pl ∧ pl.load = some r2 ∧
      r2.id = c1Report.id ∧ r2.timestamp = c1Report.timestamp ∧
      r2.metadata = c1Report.metadata ∧
      r2.first_level_metrics = c1Report.first_level_metrics ∧
      r2.context = c1Report.context ∧
      ∀ (σ : Type) (render_json : PyObj → Option Nat → Option String → Option String → σ)
        (inc exc : List (String × String)),
        r2.as_dict render_json inc exc = c1Report.as_dict render_json inc exc :=
  ⟨by decide, C1_persistence_round_trip c1Report (by decide)⟩

/-! ### The tabular view (C8) -/

/-- First-occurrence deduplication of a list of keys: the key order a Python
dict acquires when fed the list left to right. -/
def firstDedup : List String → List String
  | [] => []
  | s :: l => s :: (firstDedup l).filter (fun x => x != s)

/-- Reference description of the grouping loop's final dictionary: one entry
per distinct metric id in first-occurrence order, holding that group's
rendered tables in first-level order. -/
def mkGroups {τ : Type} (f : PyObj → List τ) (flm : List PyObj) :
    List (String × List (List τ)) :=
  (firstDedup (flm.map PyObj.get_id)).map (fun i => (i, groupRenders f flm i))

theorem mem_firstDedup {s : String} : ∀ {l : List String}, s ∈ firstDedup l ↔ s ∈ l := by
  intro l
  induction l with
  | nil => simp [firstDedup]
  | cons a l ih =>
    simp only [firstDedup, List.mem_cons, List.mem_filter, ih, bne_iff_ne, ne_eq]
    by_cases h : s = a
    · simp [h]
    · simp [h]

theorem firstDedup_nodup : ∀ (l : List String), (firstDedup l).Nodup
  | [] => List.nodup_nil
  | s :: l => by
    simp only [firstDedup, List.nodup_cons]
    refine ⟨?_, (firstDedup_nodup l).filter _⟩
    intro hmem
    have h2 := (List.mem_filter.mp hmem).2
    simp at h2

theorem upsert_not_mem {τ : Type} (k : String) (v : List τ) :
    ∀ (l : List (String × List (List τ))), k ∉ l.map Prod.fst →
      upsert k v l = l ++ [(k, [v])]
  | [], _ => rfl
  | (k', vs) :: rest, h => by
    have hk1 : ¬(k = k') := by
      intro he
      exact h (he ▸ List.mem_cons_self k' (rest.map Prod.fst))
    have hk2 : k ∉ rest.map Prod.fst := fun hmem => h (List.mem_cons_of_mem _ hmem)
    have hne : ¬(k' = k) := fun he => hk1 he.symm
    simp only [upsert, hne, if_false]
    rw [upsert_not_mem k v rest hk2]
    rfl

theorem upsert_mem_nodup {τ : Type} (k : String) (v : List τ) :
    ∀ (l : List (String × List (List τ))), (l.map Prod.fst).Nodup →
      k ∈ l.map Prod.fst →
      upsert k v l = l.map (fun e => if e.1 = k then (e.1, e.2 ++ [v]) else e)
  | [], _, hm => by cases hm
  | (k', vs) :: rest, hnd, hm => by
    have hnodup : (k' :: rest.map Prod.fst).Nodup := hnd
    have hhead : k' ∉ rest.map Prod.fst := (List.nodup_cons.mp hnodup).1
    have htail : (rest.map Prod.fst).Nodup := (List.nodup_cons.mp hnodup).2
    by_cases he : k' = k
    · subst he
      simp only [upsert, List.map_cons]
      simp only [if_true]
      congr 1
      have hid : ∀ e ∈ rest, (if e.1 = k' then (e.1, e.2 ++ [v]) else e) = e := by
        intro e hmem
        have hne2 : ¬(e.1 = k') := by
          intro hh
          exact hhead (hh ▸ List.mem_map_of_mem Prod.fst hmem)
        simp [hne2]
      exact ((List.map_congr_left hid).trans (List.map_id rest)).symm
    · have hm' : k ∈ rest.map Prod.fst := by
        have h1 : k ∈ k' :: rest.map Prod.fst := hm
        rcases List.mem_cons.mp h1 with h2 | h2
        · exact absurd h2.symm he
        · exact h2
      simp only [upsert, he, if_false, List.map_cons]
      rw [upsert_mem_nodup k v rest htail hm']

theorem firstDedup_append_one (i : String) :
    ∀ (ids : List String), firstDedup (ids ++ [i]) =
      if i ∈ ids then firstDedup ids else firstDedup ids ++ [i]
  | [] => by simp [firstDedup]
  | s :: ids => by
    have hrec := firstDedup_append_one i ids
    simp only [List.cons_append, firstDedup]
    simp only [List.append_eq]
    rw [hrec]
    by_cases hmem : i ∈ ids
    · rw [if_pos hmem, if_pos (List.mem_cons_of_mem s hmem)]
    · by_cases his : i = s
      · subst his
        rw [if_neg hmem, if_pos (List.mem_cons_self i ids), List.filter_append]
        simp
      · rw [if_neg hmem, if_neg (by
            intro hc
            rcases List.mem_cons.mp hc with h1 | h1
            · exact his h1
            · exact hmem h1),
          List.filter_append]
        simp [his]

theorem groupRenders_append_one {τ : Type} (f : PyObj → List τ) (ms : List PyObj)
    (m : PyObj) (i : String) :
    groupRenders f (ms ++ [m]) i =
      groupRenders f ms i ++ if m.get_id = i then [f m] else [] := by
  unfold groupRenders
  rw [List.filter_append, List.map_append]
  by_cases h : m.get_id = i <;> simp [h]

theorem groupRenders_nil {τ : Type} (f : PyObj → List τ) (ms : List PyObj) (i : String)
    (h : i ∉ ms.map PyObj.get_id) : groupRenders f ms i = [] := by
  unfold groupRenders
  have hfil : ms.filter (fun m => m.get_id = i) = [] := by
    rw [List.filter_eq_nil_iff]
    intro m hm
    simp only [decide_eq_true_eq]
    intro he
    exact h (he ▸ List.mem_map_of_mem PyObj.get_id hm)
  rw [hfil]
  rfl

theorem mkGroups_keys {τ : Type} (f : PyObj → List τ) (ms : List PyObj) :
    (mkGroups f ms).map Prod.fst = firstDedup (ms.map PyObj.get_id) := by
  unfold mkGroups
  rw [List.map_map]
  exact (List.map_congr_left (fun _ _ => rfl)).trans (List.map_id _)

theorem mkGroups_append_one {τ : Type} (f : PyObj → List τ) (ms : List PyObj) (m : PyObj) :
    mkGroups f (ms ++ [m]) = upsert m.get_id (f m) (mkGroups f ms) := by
  by_cases hmem : m.get_id ∈ ms.map PyObj.get_id
  · rw [upsert_mem_nodup m.get_id (f m) (mkGroups f ms)
      (by rw [mkGroups_keys]; exact firstDedup_nodup _)
      (by rw [mkGroups_keys]; exact mem_firstDedup.mpr hmem)]
    unfold mkGroups
    rw [List.map_map, List.map_append]
    simp only [List.map_cons, List.map_nil]
    have hfd : firstDedup (ms.map PyObj.get_id ++ [m.get_id])
        = firstDedup (ms.map PyObj.get_id) := by
      rw [firstDedup_append_one, if_pos hmem]
    rw [hfd]
    apply List.map_congr_left
    intro i _
    simp only [Function.comp]
    by_cases hi : i = m.get_id
    · subst hi
      rw [groupRenders_append_one]
      simp
    · rw [groupRenders_append_one]
      have : ¬(m.get_id = i) := fun hh => hi hh.symm
      simp [this, hi]
  · rw [upsert_not_mem m.get_id (f m) (mkGroups f ms)
      (by rw [mkGroups_keys]; exact fun hc => hmem (mem_firstDedup.mp hc))]
    unfold mkGroups
    rw [List.map_append]
    simp only [List.map_cons, List.map_nil]
    have hfd : firstDedup (ms.map PyObj.get_id ++ [m.get_id])
        = firstDedup (ms.map PyObj.get_id) ++ [m.get_id] := by
      rw [firstDedup_append_one, if_neg hmem]
    rw [hfd, List.map_append]
    congr 1
    · apply List.map_congr_left
      intro i hi
      have hine : ¬(m.get_id = i) := by
        intro hh
        exact hmem (hh ▸ mem_firstDedup.mp hi)
      rw [groupRenders_append_one]
      simp [hine]
    · simp only [List.map_cons, List.map_nil]
      rw [groupRenders_append_one]
      rw [groupRenders_nil f ms m.get_id hmem]
      simp

theorem foldl_stepGroup_none {τ : Type} (f : PyObj → List τ) (flm : List PyObj) :
    flm.foldl (stepGroup f none) [] = mkGroups f flm := by
  induction flm using List.reverseRecOn with
  | nil => rfl
  | append_singleton ms m ih =>
    rw [List.foldl_append, List.foldl_cons, List.foldl_nil, ih, mkGroups_append_one]
    rfl

theorem foldl_stepGroup_some {τ : Type} (f : PyObj → List τ) (g : String) :
    ∀ (flm : List PyObj) (acc : List (String × List (List τ))),
      flm.foldl (stepGroup f (some g)) acc
        = (flm.filter (fun m => m.get_id = g)).foldl (stepGroup f none) acc := by
  intro flm
  induction flm with
  | nil => intro acc; rfl
  | cons m ms ih =>
    intro acc
    by_cases h : m.get_id = g
    · rw [List.foldl_cons, List.filter_cons_of_pos (by simpa using h), List.foldl_cons]
      rw [ih]
      congr 1
      simp [stepGroup, h]
    · rw [List.foldl_cons, List.filter_cons_of_neg (by simpa using h)]
      rw [ih]
      congr 1
      simp [stepGroup, h]

theorem firstDedup_all_eq (g : String) :
    ∀ (ids : List String), (∀ s ∈ ids, s = g) → ids ≠ [] → firstDedup ids = [g]
  | [], _, hne => absurd rfl hne
  | s :: ids, h, _ => by
    obtain rfl := h s (List.mem_cons_self s ids)
    simp only [firstDedup]
    congr 1
    cases hids : ids with
    | nil => rfl
    | cons a l =>
      rw [← hids,
        firstDedup_all_eq s ids (fun x hx => h x (List.mem_cons_of_mem _ hx)) (by simp [hids])]
      simp

theorem mkGroups_const {τ : Type} (f : PyObj → List τ) (g : String) (l : List PyObj)
    (h : ∀ m ∈ l, m.get_id = g) (hne : l ≠ []) :
    mkGroups f l = [(g, l.map f)] := by
  unfold mkGroups
  rw [firstDedup_all_eq g (l.map PyObj.get_id)
    (by intro s hs
        obtain ⟨m, hm, rfl⟩ := List.mem_map.mp hs
        exact h m hm)
    (by simpa using hne)]
  simp only [List.map_cons, List.map_nil]
  congr 2
  unfold groupRenders
  congr 1
  apply List.filter_eq_self.mpr
  intro m hm
  simpa using h m hm

theorem two_mem_length {α : Type} {a b : α} {l : List α} (ha : a ∈ l) (hb : b ∈ l)
    (hne : a ≠ b) : 2 ≤ l.length := by
  cases l with
  | nil => cases ha
  | cons x l2 =>
    cases l2 with
    | nil =>
      obtain rfl := List.mem_singleton.mp ha
      obtain rfl := List.mem_singleton.mp hb
      exact absurd rfl hne
    | cons y l3 => simp [List.length_cons]

/-- C8: the tabular-view dispatch.  With no group requested, a report whose
first-level metrics all share one id returns that single group's
concatenated table directly, and a report with at least two distinct ids
returns a mapping keyed by the distinct ids in first-occurrence order;
requesting a group no first-level metric produced fails with the
group-not-found error; requesting an existing group returns that group's
concatenated table. -/
theorem C8_as_pandas_dispatch {ρ τ : Type} (r : Report ρ) (f : PyObj → List τ) :
    (∀ i, r.first_level_metrics ≠ [] →
      (∀ m ∈ r.first_level_metrics, m.get_id = i) →
      r.as_pandas f none
        = .ok (.single ((r.first_level_metrics.map f).flatten))) ∧
    ((∃ a ∈ r.first_level_metrics, ∃ b ∈ r.first_level_metrics, a.get_id ≠ b.get_id) →
      ∃ tbl, r.as_pandas f none = .ok (.mapping tbl) ∧
        tbl.map Prod.fst = firstDedup (r.first_level_metrics.map PyObj.get_id)) ∧
    (∀ g, (∀ m ∈ r.first_level_metrics, m.get_id ≠ g) →
      r.as_pandas f (some g)
        = .error ("Metric group " ++ g ++ " not found in this report")) ∧
    (∀ g, (∃ m ∈ r.first_level_metrics, m.get_id = g) →
      r.as_pandas f (some g)
        = .ok (.single ((groupRenders f r.first_level_metrics g).flatten))) := by
  refine ⟨?_, ?_, ?_, ?_⟩
  · intro i hne hall
    unfold Report.as_pandas
    rw [foldl_stepGroup_none, mkGroups_const f i r.first_level_metrics hall hne]
    rfl
  · rintro ⟨a, ha, b, hb, hne⟩
    unfold Report.as_pandas
    rw [foldl_stepGroup_none]
    have hlen : 2 ≤ (mkGroups f r.first_level_metrics).length := by
      have hka : a.get_id ∈ (mkGroups f r.first_level_metrics).map Prod.fst := by
        rw [mkGroups_keys]
        exact mem_firstDedup.mpr (List.mem_map_of_mem PyObj.get_id ha)
      have hkb : b.get_id ∈ (mkGroups f r.first_level_metrics).map Prod.fst := by
        rw [mkGroups_keys]
        exact mem_firstDedup.mpr (List.mem_map_of_mem PyObj.get_id hb)
      have := two_mem_length hka hkb hne
      simpa using this
    rcases hshape : mkGroups f r.first_level_metrics with _ | ⟨x, _ | ⟨y, rest⟩⟩
    · rw [hshape] at hlen; simp at hlen
    · rw [hshape] at hlen; simp at hlen
    · refine ⟨((x :: y :: rest).map
          (fun kv : String × List (List τ) => (kv.1, kv.2.flatten))), ?_, ?_⟩
      · rfl
      · have hfst : ((x :: y :: rest).map
              (fun kv : String × List (List τ) => (kv.1, kv.2.flatten))).map Prod.fst
            = (x :: y :: rest).map Prod.fst := by
          rw [List.map_map]
          exact List.map_congr_left (fun _ _ => rfl)
        rw [hfst, ← hshape, mkGroups_keys]
  · intro g hnone
    unfold Report.as_pandas
    rw [foldl_stepGroup_some]
    have hfil : r.first_level_metrics.filter (fun m => m.get_id = g) = [] := by
      rw [List.filter_eq_nil_iff]
      intro m hm
      simpa using hnone m hm
    rw [hfil]
    rfl
  · rintro g ⟨m, hm, hid⟩
    unfold Report.as_pandas
    rw [foldl_stepGroup_some, foldl_stepGroup_none]
    have hmem : m ∈ r.first_level_metrics.filter (fun m => m.get_id = g) :=
      List.mem_filter.mpr ⟨hm, by simpa using hid⟩
    rw [mkGroups_const f g (r.first_level_metrics.filter (fun m => m.get_id = g))
      (fun x hx => by simpa using (List.mem_filter.mp hx).2)
      (List.ne_nil_of_mem hmem)]
    simp only [List.map_cons, List.map_nil, List.lookup, beq_self_eq_true]
    rfl

/-- A report with two first-level metrics of one group for the C8 witness. -/
def c8Report : Report Nat :=
  ⟨1, 0, [], [],
   [PyObj.metric ⟨"G1"⟩, PyObj.metric ⟨"G1"⟩],
   ⟨[PyObj.metric ⟨"G1"⟩], [0]⟩⟩

/-- A concrete per-metric table renderer for the C8 witness. -/
def c8Render : PyObj → List String := fun m => [m.get_id]

/-- Witness for the C8 dispatch theorem: single-group direct return,
group-not-found error, and existing-group return, at a concrete report. -/
theorem C8_as_pandas_dispatch_witness :
    (c8Report.first_level_metrics ≠ [] ∧
     (∀ m ∈ c8Report.first_level_metrics, m.get_id = "G1") ∧
     c8Report.as_pandas c8Render none
       = .ok (.single ((c8Report.first_level_metrics.map c8Render).flatten))) ∧
    ((∀ m ∈ c8Report.first_level_metrics, m.get_id ≠ "X") ∧
     c8Report.as_pandas c8Render (some "X")
       = .error ("Metric group " ++ "X" ++ " not found in this report")) ∧
    ((∃ m ∈ c8Report.first_level_metrics, m.get_id = "G1") ∧
     c8Report.as_pandas c8Render (some "G1")
       = .ok (.single ((groupRenders c8Render c8Report.first_level_metrics "G1").flatten))) := by
  have h := C8_as_pandas_dispatch c8Report c8Render
  exact ⟨⟨by decide, by decide, h.1 "G1" (by decide) (by decide)⟩,
         ⟨by decide, h.2.2.1 "X" (by decide)⟩,
         ⟨by decide, h.2.2.2 "G1" (by decide)⟩⟩

end Evidently
